import Mathlib

/-!
Shallow embedding of `R/downloaddata.R` from the SimpleITK-Notebooks
repository: the checksum-verified data-fetch utility with mirror fallback
and archive extraction (`get_midas_servers`, `fetch_data_one`,
`fetch_data_all`).

Modelling conventions:
* File contents are opaque strings (`Content`); the collaborators the R code
  consumes (the downloader `download.file`, the digest `tools::md5sum`, the
  archive listers/extractors `utils::untar` / `utils::unzip`, and the
  environment variable `ExternalData_OBJECT_STORES`) are an `Oracle` record
  of pure functions.
* The mutable world is `St`: the file system (path to optional content) plus
  an event trace recording downloads attempted, files hashed/removed/renamed,
  warnings, the verification step and the self-healing recursion.
* R errors (`stop`, `stopifnot`, zero-length conditions, `gsub` with a NULL
  replacement) become `Except` errors carrying the state at the error point.
* The source recursion of `fetch_data_one` (re-download with `force=TRUE` on
  a stale cache) is embedded with an explicit fuel parameter; termination of
  the R function is then a theorem (fuel-independence), not an assumption.
-/

/-- Raw bytes of a file, abstractly. -/
abbrev Content := String

/-- One manifest record, as the JSON object read by `fromJSON`: the R code
reads the fields `md5sum`, `url` and `archive`; a `sha512` field may be
present in a manifest but is never consulted by this code. `archive` models
`!is.null(filedetails$archive)`. -/
structure Entry where
  md5sum : Option String := none
  sha512 : Option String := none
  url : Option String := none
  archive : Bool := false
deriving Repr, DecidableEq

/-- A manifest: logical file names mapped to entries (JSON object order). -/
abbrev Manifest := List (String × Entry)

/-- `manifest[[name]]` with `name %in% names(manifest)`: first match. -/
def lookupEntry : Manifest → String → Option Entry
  | [], _ => none
  | (k, e) :: rest, n => if k = n then some e else lookupEntry rest n

/-- `names(manifest)`. -/
def manifestNames (m : Manifest) : List String := m.map Prod.fst

/-- Observable events of one run, in order. -/
inductive Event where
  | attempt (url : String)
  | hashed (path : String)
  | removed (path : String)
  | warn (url : String)
  | verifyStep (path : String)
  | recursed (name : String)
  | listTar (path : String)
  | listZip (path : String)
  | renamed (src : String) (dst : String)
  | extracted (path : String)
deriving Repr, DecidableEq

/-- Errors raised by the R code (plus fuel exhaustion of the embedding). -/
inductive RErr where
  | outOfFuel
  | manifestKey (name : String)
  | invalidReplacement
  | lengthZero
  | dataFetch (file : String) (urls : List String)
deriving Repr, DecidableEq

/-- The collaborators consumed by the script, as pure oracles. -/
structure Oracle where
  download : String → Option Content
  md5 : Content → String
  sha512 : Content → String
  stores : String
  tarOk : Content → Bool
  zipOk : Content → Bool
  tarMembers : Content → List (String × Content)
  zipMembers : Content → List (String × Content)

/-- Mutable world: the file system and the event trace. -/
structure St where
  fs : String → Option Content
  trace : List Event

/-- Append an event to the trace. -/
def emit (s : St) (e : Event) : St := { s with trace := s.trace ++ [e] }

/-- Write (or delete, with `none`) a file. -/
def fsSet (s : St) (p : String) (v : Option Content) : St :=
  { s with fs := fun q => if q = p then v else s.fs q }

/-- Scan-and-replace on character lists (the behaviour of R `gsub` with a
fixed literal pattern): left to right, each non-overlapping occurrence of
`pat` becomes `rep`.  The fuel argument (instantiated with the list length)
makes the recursion structural and kernel-computable. -/
def gsubLoop (pat rep : List Char) : Nat → List Char → List Char
  | 0, l => l
  | _+1, [] => []
  | n+1, c :: cs =>
    if pat.isPrefixOf (c :: cs) then
      rep ++ gsubLoop pat rep n (List.drop pat.length (c :: cs))
    else c :: gsubLoop pat rep n cs

/-- R `gsub(pat, rep, s, fixed-pattern)` on strings. -/
def rGsub (pat rep s : String) : String :=
  ⟨gsubLoop pat.data rep.data s.data.length s.data⟩

/-- Split on a literal separator, left to right (kernel-computable). -/
def splitOnLoop (sep : List Char) (acc : List Char) :
    Nat → List Char → List (List Char)
  | 0, l => [acc.reverse ++ l]
  | _+1, [] => [acc.reverse]
  | n+1, c :: cs =>
    if sep.isPrefixOf (c :: cs) then
      acc.reverse :: splitOnLoop sep [] n (List.drop sep.length (c :: cs))
    else splitOnLoop sep (c :: acc) n cs

/-- Split a string on a literal separator; the whole string when the
separator is empty. -/
def rSplitOn (s sep : String) : List String :=
  if sep = "" then [s]
  else (splitOnLoop sep.data [] s.data.length s.data).map String.mk

/-- R `basename`: the part after the last `/`. -/
def rBasename (p : String) : String := (rSplitOn p "/").getLastD p

/-- R `dirname`: the part before the last `/` (`"."` when there is none). -/
def rDirname (p : String) : String :=
  let parts := rSplitOn p "/"
  if parts.length ≤ 1 then "." else String.intercalate "/" parts.dropLast

/-- R `strsplit(s, sep)[[1]]`: like `splitOn` but a trailing empty field is
dropped. -/
def rStrsplit (s : String) (sep : String) : List String :=
  let l := rSplitOn s sep
  if l.getLastD "" = "" then l.dropLast else l

/-- `as.character` applied to the one-element list returned by `strsplit`:
a length-one vector is its own string, a longer vector is deparsed to
`c("a", "b")`.  This is the coercion `paste0` performs on the list in
`get_midas_servers`. -/
def rAsCharacter1 (parts : List String) : String :=
  match parts with
  | [p] => p
  | _ =>
    "c(" ++ String.intercalate ", " (parts.map (fun p => "\"" ++ p ++ "\"")) ++ ")"

/-- The three hard-coded mirror templates of `get_midas_servers`. -/
def mirror_templates : List String :=
  [ "http://midas3.kitware.com/midas/api/rest?method=midas.bitstream.download&checksum=%(hash)&algorithm=%(algo)",
    "http://www.itk.org/files/ExternalData/%(algo)/%(hash)",
    "http://slicer.kitware.com/midas3/api/rest?method=midas.bitstream.download&checksum=%(hash)&algorithm=%(algo)" ]

/-- `get_midas_servers()`: the mirror templates, preceded — when the
environment variable `ExternalData_OBJECT_STORES` is non-empty — by the
single string `paste0` builds from the `strsplit` list (the list is coerced
with `as.character`, so several semicolon-separated stores are deparsed into
one string). -/
def get_midas_servers (env : String) : List String :=
  if env = "" then mirror_templates
  else
    ("file://" ++ rAsCharacter1 (rStrsplit env ";") ++ "/MD5/%(hash)") :: mirror_templates

/-- The two `gsub` calls: `%(hash)` replaced by the entry's md5sum, then
`%(algo)` replaced by `"md5"`. -/
def substUrl (h : String) (t : String) : String :=
  rGsub "%(algo)" "md5" (rGsub "%(hash)" h t)

/-- `all_urls`: the explicit `url` field if present, otherwise the server
templates with both substitutions applied.  When the `url` field is absent
and the entry has no `md5sum`, `gsub` is called with a `NULL` replacement,
which is an R error (`invalid replacement`). -/
def candidateUrls (env : String) (fd : Entry) : Except RErr (List String) :=
  match fd.url with
  | some u => .ok [u]
  | none =>
    match fd.md5sum with
    | none => .error .invalidReplacement
    | some h => .ok ((get_midas_servers env).map (substUrl h))

/-- The download loop of `fetch_data_one`.  Per URL, when `force` is set or
the output file does not exist: `download.file` (on success the served bytes
land at `outfile`, on error nothing is written), then `tools::md5sum` on the
output file; a match breaks with `newdownload=TRUE`, otherwise `file.remove`
and a warning, then the next URL.  When the entry has no `md5sum`, the
comparison `newmd5 == NULL` yields a zero-length condition and R errors. -/
def downloadLoop (o : Oracle) (md5exp : Option String) (outfile : String)
    (force : Bool) : List String → St → Except (RErr × St) (Bool × St)
  | [], s => .ok (false, s)
  | u :: rest, s =>
    if force || (s.fs outfile).isNone then
      let s1 := emit s (.attempt u)
      let s2 := match o.download u with
                | some c => fsSet s1 outfile (some c)
                | none => s1
      let s3 := emit s2 (.hashed outfile)
      match md5exp with
      | none => .error (.lengthZero, s3)
      | some h =>
        match s2.fs outfile with
        | some c =>
          if o.md5 c = h then .ok (true, s3)
          else
            let s4 := emit (emit s3 (.removed outfile)) (.warn u)
            downloadLoop o md5exp outfile force rest (fsSet s4 outfile none)
        | none =>
          let s4 := emit (emit s3 (.removed outfile)) (.warn u)
          downloadLoop o md5exp outfile force rest s4
    else downloadLoop o md5exp outfile force rest s

/-- `untar(tmp, exdir=outdir)` / `unzip(tmp, exdir=outdir)`: write every
member under the extraction directory. -/
def extractAll (base : String) : List (String × Content) → St → St
  | [], s => s
  | (m, mc) :: rest, s =>
    extractAll base rest (emit (fsSet s (base ++ "/" ++ m) (some mc)) (.extracted (base ++ "/" ++ m)))

/-- The archive-unpacking tail of `fetch_data_one`: when the entry is
archive-flagged, try listing as tar (internal), else as zip; on success
rename to `<outfile>.tmp`, extract into `dirname(outfile)`, remove the
temporary file; when both listings fail, leave the file in place. -/
def archiveStep (o : Oracle) (fd : Entry) (outfile : String) (s : St) :
    Except (RErr × St) (String × St) :=
  if fd.archive then
    let tmpoutfile := outfile ++ ".tmp"
    let outdir := rDirname outfile
    match s.fs outfile with
    | none => .ok (outfile, emit (emit s (.listTar outfile)) (.listZip outfile))
    | some c =>
      let s1 := emit s (.listTar outfile)
      if o.tarOk c then
        let s2 := emit s1 (.renamed outfile tmpoutfile)
        let s3 := fsSet (fsSet s2 outfile none) tmpoutfile (some c)
        let s4 := extractAll outdir (o.tarMembers c) s3
        .ok (outfile, emit (fsSet s4 tmpoutfile none) (.removed tmpoutfile))
      else
        let s2 := emit s1 (.listZip outfile)
        if o.zipOk c then
          let s3 := emit s2 (.renamed outfile tmpoutfile)
          let s4 := fsSet (fsSet s3 outfile none) tmpoutfile (some c)
          let s5 := extractAll outdir (o.zipMembers c) s4
          .ok (outfile, emit (fsSet s5 tmpoutfile none) (.removed tmpoutfile))
        else .ok (outfile, s2)
  else .ok (outfile, s)

/-- `fetch_data_one(onefilename, output_directory, manifest, verify, force)`.
`fuel` bounds the self-healing recursion depth of the embedding; the source
recursion passes `force=TRUE`.  Mirrors the R control flow: manifest lookup
(`stopifnot`), candidate-URL construction, the download loop, the
file-absent fatal `stop` listing all URLs, the stale-cache verification with
its one recursive call (result discarded, errors propagate), and the archive
step. -/
def fetch_data_one (o : Oracle) : Nat → String → String → Manifest → Bool → Bool →
    St → Except (RErr × St) (String × St)
  | 0, _, _, _, _, _, s => .error (.outOfFuel, s)
  | Nat.succ fuel, name, dir, manifest, verify, force, s =>
    match lookupEntry manifest name with
    | none => .error (.manifestKey name, s)
    | some fd =>
      let outfile := dir ++ "/" ++ name
      match candidateUrls o.stores fd with
      | .error e => .error (e, s)
      | .ok all_urls =>
        match downloadLoop o fd.md5sum outfile force all_urls s with
        | .error es => .error es
        | .ok (newdownload, s1) =>
          match s1.fs outfile with
          | none => .error (.dataFetch (rBasename outfile) all_urls, s1)
          | some _ =>
            let afterVerify : Except (RErr × St) St :=
              if !newdownload && verify then
                let s2 := emit s1 (.verifyStep outfile)
                match fd.md5sum with
                | none => .error (.lengthZero, s2)
                | some h =>
                  let s3 := emit s2 (.hashed outfile)
                  match s2.fs outfile with
                  | none => .error (.lengthZero, s3)
                  | some c =>
                    if fd.archive = false ∧ o.md5 c ≠ h then
                      match fetch_data_one o fuel name dir manifest verify true
                          (emit s3 (.recursed name)) with
                      | .error es => .error es
                      | .ok (_, s5) => .ok s5
                    else .ok s3
              else .ok s1
            match afterVerify with
            | .error es => .error es
            | .ok s6 => archiveStep o fd outfile s6

/-- `lapply(names(manifest), fetch_data_one, ..., force=FALSE)` over an
explicit name list: results are collected in order; an error in any call
aborts the remaining calls and propagates. -/
def fetchAllNames (o : Oracle) (fuel : Nat) (dir : String) (manifest : Manifest)
    (verify : Bool) : List String → St → Except (RErr × St) (List String × St)
  | [], s => .ok ([], s)
  | n :: ns, s =>
    match fetch_data_one o fuel n dir manifest verify false s with
    | .error es => .error es
    | .ok (p, s1) =>
      match fetchAllNames o fuel dir manifest verify ns s1 with
      | .error es => .error es
      | .ok (ps, s2) => .ok (p :: ps, s2)

/-- `fetch_data_all(output_directory, manifest_file, verify)`. -/
def fetch_data_all (o : Oracle) (fuel : Nat) (dir : String) (manifest : Manifest)
    (verify : Bool) (s : St) : Except (RErr × St) (List String × St) :=
  fetchAllNames o fuel dir manifest verify (manifestNames manifest) s

/-- State carried by a `fetch_data_one` outcome, error or success. -/
def stOf : Except (RErr × St) (String × St) → St
  | .error (_, s) => s
  | .ok (_, s) => s

/-- The URLs for which `download.file` was invoked, in order. -/
def attempts (tr : List Event) : List String :=
  tr.filterMap (fun e => match e with | .attempt u => some u | _ => none)

/-- Number of self-healing recursive calls recorded in a trace. -/
def nRecursed (tr : List Event) : Nat :=
  tr.countP (fun e => match e with | .recursed _ => true | _ => false)

/-- Number of stale-cache verification steps recorded in a trace. -/
def nVerifySteps (tr : List Event) : Nat :=
  tr.countP (fun e => match e with | .verifyStep _ => true | _ => false)

/-- A mirror fails for expected digest `h`: either the download errors or the
served bytes hash to something else (Boolean, decidable form). -/
def mirrorFailsB (o : Oracle) (h : String) (u : String) : Bool :=
  match o.download u with
  | some c => o.md5 c != h
  | none => true

/-! ### Basic state lemmas -/

@[simp] lemma emit_fs (s : St) (e : Event) : (emit s e).fs = s.fs := rfl

@[simp] lemma emit_trace (s : St) (e : Event) :
    (emit s e).trace = s.trace ++ [e] := rfl

@[simp] lemma fsSet_trace (s : St) (p : String) (v : Option Content) :
    (fsSet s p v).trace = s.trace := rfl

@[simp] lemma fsSet_fs_self (s : St) (p : String) (v : Option Content) :
    (fsSet s p v).fs p = v := by simp [fsSet]

lemma fsSet_fs_other (s : St) (p q : String) (v : Option Content) (h : q ≠ p) :
    (fsSet s p v).fs q = s.fs q := by simp [fsSet, h]

@[simp] lemma stOf_ok (p : String) (s : St) :
    stOf (.ok (p, s)) = s := rfl

@[simp] lemma stOf_error (e : RErr) (s : St) :
    stOf (.error (e, s)) = s := rfl

lemma attempts_append (l₁ l₂ : List Event) :
    attempts (l₁ ++ l₂) = attempts l₁ ++ attempts l₂ := by
  simp [attempts]

lemma nRecursed_append (l₁ l₂ : List Event) :
    nRecursed (l₁ ++ l₂) = nRecursed l₁ + nRecursed l₂ := by
  simp [nRecursed, List.countP_append]

lemma nVerifySteps_append (l₁ l₂ : List Event) :
    nVerifySteps (l₁ ++ l₂) = nVerifySteps l₁ + nVerifySteps l₂ := by
  simp [nVerifySteps, List.countP_append]

/-- A string never equals itself with the `".tmp"` suffix appended. -/
lemma ne_append_tmp (p : String) : p ≠ p ++ ".tmp" := by
  intro h
  have hlen : p.length = (p ++ ".tmp").length := by rw [← h]
  rw [String.length_append] at hlen
  have h4 : ".tmp".length = 4 := rfl
  omega

/-! ### Download-loop lemmas -/

/-- With `force=FALSE` and the output file already on disk, the loop body is
skipped for every URL: no downloads, no state change. -/
lemma downloadLoop_skip (o : Oracle) (md5exp : Option String) (outfile : String)
    (urls : List String) (s : St) (c : Content) (hfs : s.fs outfile = some c) :
    downloadLoop o md5exp outfile false urls s = .ok (false, s) := by
  induction urls with
  | nil => rfl
  | cons u rest ih =>
    simp only [downloadLoop, hfs, Option.isNone_some, Bool.false_or, if_neg,
      Bool.false_eq_true, not_false_iff]
    exact ih

/-- Event block of one failed mirror attempt. -/
def failEvents (outfile : String) : List String → List Event
  | [] => []
  | u :: rest =>
    [.attempt u, .hashed outfile, .removed outfile, .warn u] ++ failEvents outfile rest

/-- If the loop is entered with no file on disk and every URL fails
(download error or digest mismatch), the loop ends with `newdownload=FALSE`,
no file on disk, and one attempt/hash/remove/warn block per URL. -/
lemma downloadLoop_fail_all (o : Oracle) (h : String) (outfile : String)
    (force : Bool) (urls : List String) (s : St)
    (hfs : s.fs outfile = none) (hall : urls.all (mirrorFailsB o h) = true) :
    ∃ s', downloadLoop o (some h) outfile force urls s = .ok (false, s') ∧
      s'.fs outfile = none ∧ s'.trace = s.trace ++ failEvents outfile urls := by
  induction urls generalizing s with
  | nil => exact ⟨s, rfl, hfs, by simp [failEvents]⟩
  | cons u rest ih =>
    rw [List.all_cons, Bool.and_eq_true] at hall
    obtain ⟨hu, hrest⟩ := hall
    simp only [downloadLoop, hfs, Option.isNone_none, Bool.or_true]
    cases hd : o.download u with
    | none =>
      simp only [hd, emit_fs, hfs]
      obtain ⟨s', h1, h2, h3⟩ := ih (s := emit (emit (emit (emit s (.attempt u))
        (.hashed outfile)) (.removed outfile)) (.warn u)) (by simpa using hfs) hrest
      refine ⟨s', h1, h2, ?_⟩
      simp only [emit_trace] at h3
      simp [h3, failEvents]
    | some c =>
      have hcm : o.md5 c ≠ h := by
        simp only [mirrorFailsB, hd, bne_iff_ne, ne_eq] at hu
        exact hu
      simp only [hd, fsSet_fs_self, if_neg hcm]
      obtain ⟨s', h1, h2, h3⟩ := ih
        (s := fsSet (emit (emit (emit (fsSet (emit s (.attempt u)) outfile (some c))
          (.hashed outfile)) (.removed outfile)) (.warn u)) outfile none)
        (by simp) hrest
      refine ⟨s', h1, h2, ?_⟩
      simp only [fsSet_trace, emit_trace] at h3
      simp [h3, failEvents]

/-- First URL serves correctly-hashed bytes (loop body entered because of
`force` or an absent file): the loop breaks at once with `newdownload=TRUE`,
the file holds the served bytes, and exactly one attempt was made. -/
lemma downloadLoop_first_success (o : Oracle) (h : String) (outfile : String)
    (force : Bool) (u : String) (rest : List String) (s : St) (c : Content)
    (hrun : force = true ∨ s.fs outfile = none)
    (hd : o.download u = some c) (hc : o.md5 c = h) :
    downloadLoop o (some h) outfile force (u :: rest) s =
      .ok (true, emit (fsSet (emit s (.attempt u)) outfile (some c)) (.hashed outfile)) := by
  have hcond : (force || (s.fs outfile).isNone) = true := by
    rcases hrun with h1 | h1 <;> simp [h1]
  simp only [downloadLoop, hcond, if_true, hd, fsSet_fs_self, if_pos hc]

/-- First URL serves wrongly-hashed bytes (loop body entered): the bytes are
written, hashed, removed again, a warning recorded, and the loop continues
with the remaining URLs on a file-less state. -/
lemma downloadLoop_fail_step (o : Oracle) (h : String) (outfile : String)
    (force : Bool) (u : String) (rest : List String) (s : St) (c : Content)
    (hrun : force = true ∨ s.fs outfile = none)
    (hd : o.download u = some c) (hc : o.md5 c ≠ h) :
    downloadLoop o (some h) outfile force (u :: rest) s =
      downloadLoop o (some h) outfile force rest
        (fsSet (emit (emit (emit (fsSet (emit s (.attempt u)) outfile (some c))
          (.hashed outfile)) (.removed outfile)) (.warn u)) outfile none) := by
  have hcond : (force || (s.fs outfile).isNone) = true := by
    rcases hrun with h1 | h1 <;> simp [h1]
  simp only [downloadLoop, hcond, if_true, hd, fsSet_fs_self, if_neg hc]

/-- The candidate-URL list is never empty: an explicit `url` yields one
candidate, and the server list always holds the three mirror templates. -/
lemma candidateUrls_ne_nil (env : String) (fd : Entry) (us : List String)
    (hc : candidateUrls env fd = .ok us) : us ≠ [] := by
  unfold candidateUrls at hc
  cases hu : fd.url with
  | some u => rw [hu] at hc; cases hc; simp
  | none =>
    rw [hu] at hc
    cases hm : fd.md5sum with
    | none => rw [hm] at hc; cases hc
    | some h =>
      rw [hm] at hc
      cases hc
      unfold get_midas_servers
      by_cases he : env = "" <;> simp [he, mirror_templates]

/-- An entry with an `md5sum` always gets a non-empty candidate list. -/
lemma candidateUrls_ok_of_md5 (env : String) (fd : Entry) (h : String)
    (hm : fd.md5sum = some h) :
    ∃ us, candidateUrls env fd = .ok us ∧ us ≠ [] := by
  unfold candidateUrls
  cases hu : fd.url with
  | some u => exact ⟨[u], rfl, by simp⟩
  | none =>
    rw [hm]
    refine ⟨_, rfl, ?_⟩
    unfold get_midas_servers
    by_cases he : env = "" <;> simp [he, mirror_templates]

/-- State carried by a download-loop outcome. -/
def loopStOf : Except (RErr × St) (Bool × St) → St
  | .error (_, s) => s
  | .ok (_, s) => s

/-- A forced loop that ends with `newdownload=FALSE` ran its body for every
URL, so either there were no URLs at all or the last body removed the file. -/
lemma downloadLoop_forced_false_none (o : Oracle) (md5exp : Option String)
    (outfile : String) (urls : List String) (s s' : St)
    (hl : downloadLoop o md5exp outfile true urls s = .ok (false, s')) :
    urls = [] ∨ s'.fs outfile = none := by
  induction urls generalizing s with
  | nil => exact .inl rfl
  | cons u rest ih =>
    right
    simp only [downloadLoop, Bool.true_or, if_true] at hl
    split at hl
    · exact absurd hl (by simp)
    · split at hl
      · split at hl
        · exact absurd hl (by simp)
        · rcases ih _ hl with h1 | h1
          · subst h1
            simp only [downloadLoop] at hl
            cases hl; simp
          · exact h1
      · rcases ih _ hl with h1 | h1
        · subst h1
          simp only [downloadLoop] at hl
          cases hl
          simp_all
        · exact h1

/-! ### Trace accounting -/

/-- Events that are neither download attempts, nor the verification step,
nor the self-healing recursion marker. -/
def neutralEv (e : Event) : Bool :=
  match e with
  | .attempt _ => false
  | .verifyStep _ => false
  | .recursed _ => false
  | _ => true

lemma attempts_nil_of_neutral (t : List Event) (h : t.all neutralEv = true) :
    attempts t = [] := by
  rw [attempts, List.filterMap_eq_nil_iff]
  intro e he
  have := List.all_eq_true.mp h e he
  cases e <;> simp_all [neutralEv]

lemma nRecursed_zero_of_neutral (t : List Event) (h : t.all neutralEv = true) :
    nRecursed t = 0 := by
  rw [nRecursed, List.countP_eq_zero]
  intro e he
  have := List.all_eq_true.mp h e he
  cases e <;> simp_all [neutralEv]

lemma nVerifySteps_zero_of_neutral (t : List Event) (h : t.all neutralEv = true) :
    nVerifySteps t = 0 := by
  rw [nVerifySteps, List.countP_eq_zero]
  intro e he
  have := List.all_eq_true.mp h e he
  cases e <;> simp_all [neutralEv]

/-! ### Extraction lemmas -/

lemma extractAll_trace (base : String) (ms : List (String × Content)) (s : St) :
    (extractAll base ms s).trace =
      s.trace ++ ms.map (fun x => .extracted (base ++ "/" ++ x.1)) := by
  induction ms generalizing s with
  | nil => simp [extractAll]
  | cons x rest ih => simp [extractAll, ih]

lemma extractAll_fs_notin (base : String) (ms : List (String × Content))
    (s : St) (q : String) (h : ∀ x ∈ ms, base ++ "/" ++ x.1 ≠ q) :
    (extractAll base ms s).fs q = s.fs q := by
  induction ms generalizing s with
  | nil => rfl
  | cons x rest ih =>
    rw [extractAll, ih _ (fun y hy => h y (List.mem_cons_of_mem _ hy))]
    exact fsSet_fs_other _ _ _ _ (fun hq => h x (List.mem_cons_self _ _) hq.symm)

lemma extractAll_fs_mem (base : String) (ms : List (String × Content))
    (s : St) (p : String) (mc : Content)
    (hnd : (ms.map (fun x => base ++ "/" ++ x.1)).Nodup)
    (hmem : (p, mc) ∈ ms) :
    (extractAll base ms s).fs (base ++ "/" ++ p) = some mc := by
  induction ms generalizing s with
  | nil => cases hmem
  | cons x rest ih =>
    rw [List.map_cons, List.nodup_cons] at hnd
    rcases List.mem_cons.mp hmem with heq | hmem'
    · subst heq
      rw [extractAll, extractAll_fs_notin]
      · simp
      · intro y hy hqy
        exact hnd.1 (hqy ▸ List.mem_map_of_mem _ hy)
    · exact ih _ hnd.2 hmem'

/-! ### Archive-step lemmas -/

/-- The archive step never raises an error and always returns `outfile`. -/
lemma archiveStep_ok (o : Oracle) (fd : Entry) (outfile : String) (s : St) :
    ∃ s', archiveStep o fd outfile s = .ok (outfile, s') := by
  unfold archiveStep
  by_cases ha : fd.archive
  · simp only [ha, if_true]
    cases hfs : s.fs outfile with
    | none => exact ⟨_, rfl⟩
    | some c =>
      by_cases ht : o.tarOk c
      · simp only [ht, if_true]; exact ⟨_, rfl⟩
      · simp only [ht, if_false, Bool.false_eq_true]
        by_cases hz : o.zipOk c
        · simp only [hz, if_true]; exact ⟨_, rfl⟩
        · simp only [hz, if_false, Bool.false_eq_true]; exact ⟨_, rfl⟩
  · simp only [Bool.not_eq_true] at ha
    simp only [ha, Bool.false_eq_true, if_false]
    exact ⟨_, rfl⟩

/-- The archive step appends only neutral events: no download attempts, no
verification step, no recursion marker. -/
lemma archiveStep_trace_neutral (o : Oracle) (fd : Entry) (outfile : String)
    (s : St) :
    ∃ t, (stOf (archiveStep o fd outfile s)).trace = s.trace ++ t ∧
      t.all neutralEv = true := by
  unfold archiveStep
  by_cases ha : fd.archive
  · simp only [ha, if_true]
    cases hfs : s.fs outfile with
    | none => exact ⟨[.listTar outfile, .listZip outfile], by simp, by simp [neutralEv]⟩
    | some c =>
      by_cases ht : o.tarOk c
      · simp only [ht, if_true, stOf_ok]
        refine ⟨[.listTar outfile, .renamed outfile (outfile ++ ".tmp")] ++
          (o.tarMembers c).map (fun x => .extracted (rDirname outfile ++ "/" ++ x.1)) ++
          [.removed (outfile ++ ".tmp")], ?_, ?_⟩
        · simp [extractAll_trace]
        · simp only [List.all_append, Bool.and_eq_true]
          refine ⟨⟨by simp [neutralEv], ?_⟩, by simp [neutralEv]⟩
          rw [List.all_eq_true]
          intro x hx
          obtain ⟨y, hy, rfl⟩ := List.mem_map.mp hx
          rfl
      · simp only [ht, if_false, Bool.false_eq_true]
        by_cases hz : o.zipOk c
        · simp only [hz, if_true, stOf_ok]
          refine ⟨[.listTar outfile, .listZip outfile,
            .renamed outfile (outfile ++ ".tmp")] ++
            (o.zipMembers c).map (fun x => .extracted (rDirname outfile ++ "/" ++ x.1)) ++
            [.removed (outfile ++ ".tmp")], ?_, ?_⟩
          · simp [extractAll_trace]
          · simp only [List.all_append, Bool.and_eq_true]
            refine ⟨⟨by simp [neutralEv], ?_⟩, by simp [neutralEv]⟩
            rw [List.all_eq_true]
            intro x hx
            obtain ⟨y, hy, rfl⟩ := List.mem_map.mp hx
            rfl
        · simp only [hz, if_false, Bool.false_eq_true, stOf_ok]
          exact ⟨[.listTar outfile, .listZip outfile], by simp, by simp [neutralEv]⟩
  · simp only [Bool.not_eq_true] at ha
    simp only [ha, Bool.false_eq_true, if_false, stOf_ok]
    exact ⟨[], by simp, rfl⟩

/-- Download failure with no file on disk: nothing is written, the missing
digest triggers removal (a no-op) and a warning, and the loop continues. -/
lemma downloadLoop_dlfail_none_step (o : Oracle) (h : String) (outfile : String)
    (force : Bool) (u : String) (rest : List String) (s : St)
    (hd : o.download u = none) (hfs : s.fs outfile = none) :
    downloadLoop o (some h) outfile force (u :: rest) s =
      downloadLoop o (some h) outfile force rest
        (emit (emit (emit (emit s (.attempt u)) (.hashed outfile))
          (.removed outfile)) (.warn u)) := by
  simp only [downloadLoop, hfs, Option.isNone_none, Bool.or_true, if_true, hd,
    emit_fs]

/-- Download failure over a present file whose cached digest matches: the
loop breaks as if freshly downloaded (the old file survives `force`). -/
lemma downloadLoop_dlfail_cached_match_step (o : Oracle) (h : String)
    (outfile : String) (force : Bool) (u : String) (rest : List String)
    (s : St) (c : Content)
    (hforce : force = true)
    (hd : o.download u = none) (hfs : s.fs outfile = some c)
    (hcm : o.md5 c = h) :
    downloadLoop o (some h) outfile force (u :: rest) s =
      .ok (true, emit (emit s (.attempt u)) (.hashed outfile)) := by
  simp only [downloadLoop, hforce, Bool.true_or, if_true, hd, emit_fs, hfs,
    if_pos hcm]

/-- Download failure over a present file whose cached digest mismatches: the
old file is removed and the loop continues. -/
lemma downloadLoop_dlfail_cached_mismatch_step (o : Oracle) (h : String)
    (outfile : String) (force : Bool) (u : String) (rest : List String)
    (s : St) (c : Content)
    (hforce : force = true)
    (hd : o.download u = none) (hfs : s.fs outfile = some c)
    (hcm : o.md5 c ≠ h) :
    downloadLoop o (some h) outfile force (u :: rest) s =
      downloadLoop o (some h) outfile force rest
        (fsSet (emit (emit (emit (emit s (.attempt u)) (.hashed outfile))
          (.removed outfile)) (.warn u)) outfile none) := by
  simp only [downloadLoop, hforce, Bool.true_or, if_true, hd, emit_fs, hfs,
    if_neg hcm]

/-- Events that are neither the verification step nor the recursion marker. -/
def noRV (e : Event) : Bool :=
  match e with
  | .verifyStep _ => false
  | .recursed _ => false
  | _ => true

/-- The download loop appends only attempt/hash/remove/warn events — never a
verification step or a recursion marker — whatever its outcome. -/
lemma downloadLoop_trace_noRV (o : Oracle) (md5exp : Option String)
    (outfile : String) (force : Bool) (urls : List String) (s : St) :
    ∃ t, (loopStOf (downloadLoop o md5exp outfile force urls s)).trace = s.trace ++ t ∧
      t.all noRV = true := by
  induction urls generalizing s with
  | nil => exact ⟨[], by simp [downloadLoop, loopStOf], rfl⟩
  | cons u rest ih =>
    by_cases hrun : (force || (s.fs outfile).isNone) = true
    · cases hm : md5exp with
      | none =>
        simp only [downloadLoop, hrun, if_true]
        cases hd : o.download u with
        | none => exact ⟨[.attempt u, .hashed outfile], by simp [loopStOf], rfl⟩
        | some c => exact ⟨[.attempt u, .hashed outfile], by simp [loopStOf], rfl⟩
      | some h =>
        subst hm
        cases hd : o.download u with
        | some c =>
          have hrun' : force = true ∨ s.fs outfile = none := by
            simp only [Bool.or_eq_true, Option.isNone_iff_eq_none] at hrun
            exact hrun
          by_cases hcm : o.md5 c = h
          · rw [downloadLoop_first_success o h outfile force u rest s c hrun' hd hcm]
            exact ⟨[.attempt u, .hashed outfile], by simp [loopStOf], rfl⟩
          · rw [downloadLoop_fail_step o h outfile force u rest s c hrun' hd hcm]
            obtain ⟨t, h1, h2⟩ := ih (s := fsSet (emit (emit (emit (fsSet (emit s
              (.attempt u)) outfile (some c)) (.hashed outfile)) (.removed outfile))
              (.warn u)) outfile none)
            refine ⟨[.attempt u, .hashed outfile, .removed outfile, .warn u] ++ t, ?_, ?_⟩
            · simp only [fsSet_trace, emit_trace] at h1; simp [h1]
            · simp_all [noRV]
        | none =>
          cases hfs : s.fs outfile with
          | none =>
            rw [downloadLoop_dlfail_none_step o h outfile force u rest s hd hfs]
            obtain ⟨t, h1, h2⟩ := ih (s := emit (emit (emit (emit s (.attempt u))
              (.hashed outfile)) (.removed outfile)) (.warn u))
            refine ⟨[.attempt u, .hashed outfile, .removed outfile, .warn u] ++ t, ?_, ?_⟩
            · simp only [emit_trace] at h1; simp [h1]
            · simp_all [noRV]
          | some c =>
            have hforce : force = true := by
              rw [hfs] at hrun; simpa using hrun
            by_cases hcm : o.md5 c = h
            · rw [downloadLoop_dlfail_cached_match_step o h outfile force u rest s c hforce hd hfs hcm]
              exact ⟨[.attempt u, .hashed outfile], by simp [loopStOf], rfl⟩
            · rw [downloadLoop_dlfail_cached_mismatch_step o h outfile force u rest s c hforce hd hfs hcm]
              obtain ⟨t, h1, h2⟩ := ih (s := fsSet (emit (emit (emit (emit s
                (.attempt u)) (.hashed outfile)) (.removed outfile)) (.warn u)) outfile none)
              refine ⟨[.attempt u, .hashed outfile, .removed outfile, .warn u] ++ t, ?_, ?_⟩
              · simp only [fsSet_trace, emit_trace] at h1; simp [h1]
              · simp_all [noRV]
    · simp only [downloadLoop, hrun, if_false, Bool.false_eq_true]
      exact ih s

lemma noRV_of_neutral (t : List Event) (h : t.all neutralEv = true) :
    t.all noRV = true := by
  rw [List.all_eq_true] at h ⊢
  intro e he
  have := h e he
  cases e <;> simp_all [neutralEv, noRV]

/-- A forced call (`force=TRUE`) never reaches the self-healing recursion:
its download loop either breaks with `newdownload=TRUE` (so the verification
block is skipped) or leaves no file (so the fatal `stop` fires first).
Hence the result does not depend on the remaining fuel. -/
lemma fetch_forced_fuel_indep (o : Oracle) (name dir : String) (m : Manifest)
    (verify : Bool) (s : St) (fuel fuel' : Nat) :
    fetch_data_one o (fuel+1) name dir m verify true s =
      fetch_data_one o (fuel'+1) name dir m verify true s := by
  cases hl : lookupEntry m name with
  | none => simp only [fetch_data_one, hl]
  | some fd =>
    cases hc : candidateUrls o.stores fd with
    | error e => simp only [fetch_data_one, hl, hc]
    | ok us =>
      cases hdl : downloadLoop o fd.md5sum (dir ++ "/" ++ name) true us s with
      | error es => simp only [fetch_data_one, hl, hc, hdl]
      | ok nds =>
        obtain ⟨nd, s1⟩ := nds
        cases hfs : s1.fs (dir ++ "/" ++ name) with
        | none => simp only [fetch_data_one, hl, hc, hdl, hfs]
        | some c =>
          cases nd with
          | false =>
            rcases downloadLoop_forced_false_none o fd.md5sum _ us s s1 hdl with h1 | h1
            · exact absurd hc (by subst h1; exact fun hcc =>
                candidateUrls_ne_nil o.stores fd [] hcc rfl)
            · rw [h1] at hfs; cases hfs
          | true => simp [fetch_data_one, hl, hc, hdl, hfs]

/-- A forced call appends no verification-step and no recursion events. -/
lemma fetch_forced_trace_noRV (o : Oracle) (name dir : String) (m : Manifest)
    (verify : Bool) (s : St) (fuel : Nat) :
    ∃ t, (stOf (fetch_data_one o (fuel+1) name dir m verify true s)).trace =
        s.trace ++ t ∧ t.all noRV = true := by
  cases hl : lookupEntry m name with
  | none => exact ⟨[], by simp [fetch_data_one, hl], rfl⟩
  | some fd =>
    cases hc : candidateUrls o.stores fd with
    | error e => exact ⟨[], by simp [fetch_data_one, hl, hc], rfl⟩
    | ok us =>
      obtain ⟨t1, ht1, ha1⟩ :=
        downloadLoop_trace_noRV o fd.md5sum (dir ++ "/" ++ name) true us s
      cases hdl : downloadLoop o fd.md5sum (dir ++ "/" ++ name) true us s with
      | error es =>
        obtain ⟨e1, s1⟩ := es
        rw [hdl] at ht1
        refine ⟨t1, ?_, ha1⟩
        simp only [fetch_data_one, hl, hc, hdl, stOf_error]
        simpa [loopStOf] using ht1
      | ok nds =>
        obtain ⟨nd, s1⟩ := nds
        rw [hdl] at ht1
        simp only [loopStOf] at ht1
        cases hfs : s1.fs (dir ++ "/" ++ name) with
        | none =>
          refine ⟨t1, ?_, ha1⟩
          simp only [fetch_data_one, hl, hc, hdl, hfs, stOf_error]
          exact ht1
        | some c =>
          cases nd with
          | false =>
            rcases downloadLoop_forced_false_none o fd.md5sum _ us s s1 hdl with h1 | h1
            · exact absurd hc (by subst h1; exact fun hcc =>
                candidateUrls_ne_nil o.stores fd [] hcc rfl)
            · rw [h1] at hfs; cases hfs
          | true =>
            obtain ⟨t2, ht2, ha2⟩ :=
              archiveStep_trace_neutral o fd (dir ++ "/" ++ name) s1
            refine ⟨t1 ++ t2, ?_, ?_⟩
            · simp only [fetch_data_one, hl, hc, hdl, hfs]
              simp only [Bool.not_true, Bool.false_and, Bool.false_eq_true,
                if_false]
              rw [ht2, ht1, List.append_assoc]
            · rw [List.all_append, ha1, noRV_of_neutral t2 ha2]
              rfl

/-! ### Claim theorems -/

/-- Empty file system, empty trace: the starting world of the examples. -/
def stEmpty : St := { fs := fun _ => none, trace := [] }

/-- A small concrete oracle: one good mirror URL serving `C1` whose digest
is `H1`; every other URL fails. -/
def oW : Oracle := {
  download := fun u => if u = "good" then some "C1" else none
  md5 := fun c => if c = "C1" then "H1" else "BADHASH"
  sha512 := fun _ => "S1"
  stores := ""
  tarOk := fun _ => false
  zipOk := fun _ => false
  tarMembers := fun _ => []
  zipMembers := fun _ => [] }

/-- C7: a logical name absent from the manifest fails at once with the
manifest-key error (`stopifnot(onefilename %in% names(manifest))`), before
any download attempt or file-system write: the state returned with the
error is exactly the input state (unchanged cache, empty new trace). -/
theorem spec_C7_missing_key (o : Oracle) (fuel : Nat) (name dir : String)
    (m : Manifest) (verify force : Bool) (s : St)
    (hl : lookupEntry m name = none) :
    fetch_data_one o (fuel+1) name dir m verify force s =
      .error (.manifestKey name, s) := by
  simp only [fetch_data_one, hl]

/-- Witness for C7 at a concrete input. -/
theorem spec_C7_missing_key_witness :
    lookupEntry [("a", ({ md5sum := some "H1" } : Entry))] "b" = none ∧
    fetch_data_one oW 1 "b" "out" [("a", { md5sum := some "H1" })] true false stEmpty =
      .error (.manifestKey "b", stEmpty) :=
  ⟨rfl, spec_C7_missing_key oW 0 "b" "out" _ true false stEmpty rfl⟩

/-- C5: with `force=FALSE` and a file already cached at
`<output_directory>/<name>` whose digest matches the manifest entry, the
call returns that same path, performs no download attempt (no network I/O),
and leaves the file system untouched — fetch on a verified cache entry is
idempotent. -/
theorem spec_C5_idempotent (o : Oracle) (fuel : Nat) (name dir : String)
    (m : Manifest) (e : Entry) (h : String) (c : Content) (verify : Bool)
    (s : St)
    (hl : lookupEntry m name = some e)
    (hh : e.md5sum = some h)
    (harch : e.archive = false)
    (hfs : s.fs (dir ++ "/" ++ name) = some c)
    (hok : o.md5 c = h) :
    ∃ s', fetch_data_one o (fuel+1) name dir m verify false s =
        .ok (dir ++ "/" ++ name, s') ∧
      s'.fs = s.fs ∧ attempts s'.trace = attempts s.trace := by
  obtain ⟨us, hc, -⟩ := candidateUrls_ok_of_md5 o.stores e h hh
  have hloop := downloadLoop_skip o e.md5sum (dir ++ "/" ++ name) us s c hfs
  cases verify with
  | false =>
    refine ⟨s, ?_, rfl, rfl⟩
    simp only [fetch_data_one, hl, hc, hloop, hfs]
    simp [archiveStep, harch]
  | true =>
    rw [hh] at hloop
    refine ⟨emit (emit s (.verifyStep (dir ++ "/" ++ name)))
      (.hashed (dir ++ "/" ++ name)), ?_, rfl, ?_⟩
    · simp only [fetch_data_one, hl, hc, hh, hloop, hfs]
      simp [archiveStep, harch, hok, hfs]
    · simp [attempts_append, attempts]

/-- C1: first candidate mirror serves wrongly-hashed bytes, second serves
matching bytes (fresh fetch, non-archive entry): the call returns the target
path, the file system ends with the correctly-hashed bytes at that path (the
mismatched download is removed, not left behind), and the trace shows the
removal and the warning strictly before the second URL is attempted. -/
theorem spec_C1_mirror_fallback (o : Oracle) (fuel : Nat) (name dir : String)
    (m : Manifest) (e : Entry) (h : String) (u1 u2 : String)
    (rest : List String) (c1 c2 : Content) (verify : Bool) (s : St)
    (hl : lookupEntry m name = some e)
    (hh : e.md5sum = some h)
    (harch : e.archive = false)
    (hc : candidateUrls o.stores e = .ok (u1 :: u2 :: rest))
    (hfs : s.fs (dir ++ "/" ++ name) = none)
    (htr : s.trace = [])
    (hd1 : o.download u1 = some c1) (hm1 : o.md5 c1 ≠ h)
    (hd2 : o.download u2 = some c2) (hm2 : o.md5 c2 = h) :
    ∃ s', fetch_data_one o (fuel+1) name dir m verify false s =
        .ok (dir ++ "/" ++ name, s') ∧
      s'.fs (dir ++ "/" ++ name) = some c2 ∧
      s'.trace = [.attempt u1, .hashed (dir ++ "/" ++ name),
        .removed (dir ++ "/" ++ name), .warn u1,
        .attempt u2, .hashed (dir ++ "/" ++ name)] := by
  have step1 := downloadLoop_fail_step o h (dir ++ "/" ++ name) false u1
    (u2 :: rest) s c1 (.inr hfs) hd1 hm1
  have step2 := downloadLoop_first_success o h (dir ++ "/" ++ name) false u2
    rest (fsSet (emit (emit (emit (fsSet (emit s (.attempt u1))
      (dir ++ "/" ++ name) (some c1)) (.hashed (dir ++ "/" ++ name)))
      (.removed (dir ++ "/" ++ name))) (.warn u1)) (dir ++ "/" ++ name) none)
    c2 (.inr (by simp)) hd2 hm2
  have hloop : downloadLoop o e.md5sum (dir ++ "/" ++ name) false
      (u1 :: u2 :: rest) s = .ok (true, emit (fsSet (emit (fsSet (emit (emit
        (emit (fsSet (emit s (.attempt u1)) (dir ++ "/" ++ name) (some c1))
        (.hashed (dir ++ "/" ++ name))) (.removed (dir ++ "/" ++ name)))
        (.warn u1)) (dir ++ "/" ++ name) none) (.attempt u2))
        (dir ++ "/" ++ name) (some c2)) (.hashed (dir ++ "/" ++ name))) := by
    rw [hh, step1, step2]
  refine ⟨emit (fsSet (emit (fsSet (emit (emit (emit (fsSet (emit s
    (.attempt u1)) (dir ++ "/" ++ name) (some c1)) (.hashed (dir ++ "/" ++ name)))
    (.removed (dir ++ "/" ++ name))) (.warn u1)) (dir ++ "/" ++ name) none)
    (.attempt u2)) (dir ++ "/" ++ name) (some c2)) (.hashed (dir ++ "/" ++ name)),
    ?_, ?_, ?_⟩
  · simp only [fetch_data_one, hl, hc, hloop]
    simp [archiveStep, harch]
  · simp
  · simp [htr]

/-- The substituted first and second mirror-template URLs for digest `H1`. -/
def c1u1 : String := substUrl "H1"
  "http://midas3.kitware.com/midas/api/rest?method=midas.bitstream.download&checksum=%(hash)&algorithm=%(algo)"

def c1u2 : String := substUrl "H1" "http://www.itk.org/files/ExternalData/%(algo)/%(hash)"

def c1u3 : String := substUrl "H1"
  "http://slicer.kitware.com/midas3/api/rest?method=midas.bitstream.download&checksum=%(hash)&algorithm=%(algo)"

/-- First mirror serves `BAD` (wrong digest), second serves `C1` (right). -/
def oC1 : Oracle := { oW with
  download := fun u => if u = c1u1 then some "BAD"
    else if u = c1u2 then some "C1" else none }

def eC1 : Entry := { md5sum := some "H1" }

def mC1 : Manifest := [("f", eC1)]

/-- Witness for C1 at a concrete input. -/
theorem spec_C1_mirror_fallback_witness :
    (lookupEntry mC1 "f" = some eC1 ∧ eC1.md5sum = some "H1" ∧
     eC1.archive = false ∧
     candidateUrls oC1.stores eC1 = .ok (c1u1 :: c1u2 :: [c1u3]) ∧
     stEmpty.fs ("out" ++ "/" ++ "f") = none ∧ stEmpty.trace = [] ∧
     oC1.download c1u1 = some "BAD" ∧ oC1.md5 "BAD" ≠ "H1" ∧
     oC1.download c1u2 = some "C1" ∧ oC1.md5 "C1" = "H1") ∧
    (∃ s', fetch_data_one oC1 1 "f" "out" mC1 true false stEmpty =
        .ok ("out" ++ "/" ++ "f", s') ∧
      s'.fs ("out" ++ "/" ++ "f") = some "C1" ∧
      s'.trace = [.attempt c1u1, .hashed ("out" ++ "/" ++ "f"),
        .removed ("out" ++ "/" ++ "f"), .warn c1u1,
        .attempt c1u2, .hashed ("out" ++ "/" ++ "f")]) :=
  ⟨⟨rfl, rfl, rfl, rfl, rfl, rfl, by decide, by decide, by decide, by decide⟩,
   spec_C1_mirror_fallback oC1 0 "f" "out" mC1 eC1 "H1" c1u1 c1u2 [c1u3]
     "BAD" "C1" true stEmpty rfl rfl rfl rfl rfl rfl (by decide) (by decide)
     (by decide) (by decide)⟩

/-- If not every URL fails, the loop (entered with no file on disk) breaks
at the first success with a verified file on disk. -/
lemma downloadLoop_success_of_not_all (o : Oracle) (h : String)
    (outfile : String) (force : Bool) (urls : List String) (s : St)
    (hfs : s.fs outfile = none)
    (hall : urls.all (mirrorFailsB o h) = false) :
    ∃ c s', downloadLoop o (some h) outfile force urls s = .ok (true, s') ∧
      s'.fs outfile = some c ∧ o.md5 c = h := by
  induction urls generalizing s with
  | nil => cases hall
  | cons u rest ih =>
    cases hfb : mirrorFailsB o h u with
    | false =>
      obtain ⟨c, hd, hcm⟩ : ∃ c, o.download u = some c ∧ o.md5 c = h := by
        unfold mirrorFailsB at hfb
        cases hd : o.download u with
        | none => rw [hd] at hfb; cases hfb
        | some c =>
          rw [hd] at hfb
          refine ⟨c, rfl, ?_⟩
          simpa using hfb
      rw [downloadLoop_first_success o h outfile force u rest s c (.inr hfs) hd hcm]
      exact ⟨c, _, rfl, by simp, hcm⟩
    | true =>
      have hrest : rest.all (mirrorFailsB o h) = false := by
        rw [List.all_cons, hfb, Bool.true_and] at hall
        exact hall
      cases hd : o.download u with
      | none =>
        rw [downloadLoop_dlfail_none_step o h outfile force u rest s hd hfs]
        exact ih _ (by simpa using hfs) hrest
      | some c =>
        have hcm : o.md5 c ≠ h := by
          unfold mirrorFailsB at hfb
          rw [hd] at hfb
          simpa using hfb
        rw [downloadLoop_fail_step o h outfile force u rest s c (.inr hfs) hd hcm]
        exact ih _ (by simp) hrest

/-- C4: starting from an absent file, the call fails with the fatal
`DataFetchError` carrying the full candidate list (the `stop` whose message
enumerates every attempted URL) exactly when every candidate fails
(download error or digest mismatch); whenever some mirror serves
correctly-hashed bytes, no such error is raised — a single mirror failure
never propagates as this error by itself. -/
theorem spec_C4_exhaustion (o : Oracle) (fuel : Nat) (name dir : String)
    (m : Manifest) (e : Entry) (h : String) (us : List String)
    (verify : Bool) (s : St)
    (hl : lookupEntry m name = some e)
    (hh : e.md5sum = some h)
    (hc : candidateUrls o.stores e = .ok us)
    (hfs : s.fs (dir ++ "/" ++ name) = none) :
    (∃ s', fetch_data_one o (fuel+1) name dir m verify false s =
        .error (.dataFetch (rBasename (dir ++ "/" ++ name)) us, s')) ↔
      us.all (mirrorFailsB o h) = true := by
  constructor
  · rintro ⟨s', hres⟩
    by_contra hall
    rw [Bool.not_eq_true] at hall
    obtain ⟨c, s1, hloop, hfs1, -⟩ :=
      downloadLoop_success_of_not_all o h (dir ++ "/" ++ name) false us s hfs hall
    rw [← hh] at hloop
    obtain ⟨s2, harch⟩ := archiveStep_ok o e (dir ++ "/" ++ name) s1
    rw [show fetch_data_one o (fuel+1) name dir m verify false s =
        .ok (dir ++ "/" ++ name, s2) from by
      simp only [fetch_data_one, hl, hc, hloop, hfs1]
      simpa using harch] at hres
    cases hres
  · intro hall
    obtain ⟨s1, hloop, hfs1, -⟩ :=
      downloadLoop_fail_all o h (dir ++ "/" ++ name) false us s hfs hall
    rw [← hh] at hloop
    refine ⟨s1, ?_⟩
    simp only [fetch_data_one, hl, hc, hloop, hfs1]

/-- An entry with one bad explicit URL for the C4 witness. -/
def eC4 : Entry := { md5sum := some "H1", url := some "dead" }

/-- Witness for C4 at a concrete input (sole mirror fails). -/
theorem spec_C4_exhaustion_witness :
    (lookupEntry [("f", eC4)] "f" = some eC4 ∧ eC4.md5sum = some "H1" ∧
     candidateUrls oW.stores eC4 = .ok ["dead"] ∧
     stEmpty.fs ("out" ++ "/" ++ "f") = none) ∧
    ((∃ s', fetch_data_one oW 1 "f" "out" [("f", eC4)] true false stEmpty =
        .error (.dataFetch (rBasename ("out" ++ "/" ++ "f")) ["dead"], s')) ↔
      (["dead"].all (mirrorFailsB oW "H1")) = true) :=
  ⟨⟨rfl, rfl, rfl, rfl⟩,
   spec_C4_exhaustion oW 0 "f" "out" [("f", eC4)] eC4 "H1" ["dead"] true
     stEmpty rfl rfl rfl rfl⟩

/-- C10: running the download loop with `force=TRUE` over an existing cache
entry, where the first mirror serves wrongly-hashed bytes and every further
candidate fails, ends in the fatal `DataFetchError` with the previously
cached file already destroyed: the first attempt overwrote it and the
digest mismatch removed it, so failure of a forced refresh is not atomic
with respect to the prior cache entry. -/
theorem spec_C10_forced_nonatomic (o : Oracle) (fuel : Nat) (name dir : String)
    (m : Manifest) (e : Entry) (h : String) (u1 : String)
    (rest : List String) (c0 c1 : Content) (verify : Bool) (s : St)
    (hl : lookupEntry m name = some e)
    (hh : e.md5sum = some h)
    (hc : candidateUrls o.stores e = .ok (u1 :: rest))
    (hcache : s.fs (dir ++ "/" ++ name) = some c0)
    (hd1 : o.download u1 = some c1) (hm1 : o.md5 c1 ≠ h)
    (hrest : rest.all (mirrorFailsB o h) = true) :
    ∃ s', fetch_data_one o (fuel+1) name dir m verify true s =
        .error (.dataFetch (rBasename (dir ++ "/" ++ name)) (u1 :: rest), s') ∧
      s'.fs (dir ++ "/" ++ name) = none := by
  have step1 := downloadLoop_fail_step o h (dir ++ "/" ++ name) true u1 rest
    s c1 (.inl rfl) hd1 hm1
  obtain ⟨s1, hloop2, hfs1, -⟩ := downloadLoop_fail_all o h (dir ++ "/" ++ name)
    true rest (fsSet (emit (emit (emit (fsSet (emit s (.attempt u1))
      (dir ++ "/" ++ name) (some c1)) (.hashed (dir ++ "/" ++ name)))
      (.removed (dir ++ "/" ++ name))) (.warn u1)) (dir ++ "/" ++ name) none)
    (by simp) hrest
  have hloop : downloadLoop o e.md5sum (dir ++ "/" ++ name) true
      (u1 :: rest) s = .ok (false, s1) := by
    rw [hh, step1, hloop2]
  refine ⟨s1, ?_, hfs1⟩
  simp only [fetch_data_one, hl, hc, hloop, hfs1]

/-- The sole mirror of the C10 witness serves wrong bytes over the cache. -/
def oC10 : Oracle := { oW with download := fun u => if u = "u1" then some "BAD" else none }

def eC10 : Entry := { md5sum := some "H1", url := some "u1" }

def stC10 : St := { fs := fun p => if p = "out/f" then some "OLD" else none, trace := [] }

/-- Witness for C10 at a concrete input. -/
theorem spec_C10_forced_nonatomic_witness :
    (lookupEntry [("f", eC10)] "f" = some eC10 ∧ eC10.md5sum = some "H1" ∧
     candidateUrls oC10.stores eC10 = .ok ["u1"] ∧
     stC10.fs ("out" ++ "/" ++ "f") = some "OLD" ∧
     oC10.download "u1" = some "BAD" ∧ oC10.md5 "BAD" ≠ "H1") ∧
    (∃ s', fetch_data_one oC10 1 "f" "out" [("f", eC10)] true true stC10 =
        .error (.dataFetch (rBasename ("out" ++ "/" ++ "f")) ["u1"], s') ∧
      s'.fs ("out" ++ "/" ++ "f") = none) :=
  ⟨⟨rfl, rfl, rfl, by decide, by decide, by decide⟩,
   spec_C10_forced_nonatomic oC10 0 "f" "out" [("f", eC10)] eC10 "H1" "u1" []
     "OLD" "BAD" true stC10 rfl rfl rfl (by decide) (by decide) (by decide) rfl⟩

/-- The world of the C5 witness: the file is already cached with the right
digest. -/
def stC5 : St := { fs := fun p => if p = "out/f" then some "C1" else none, trace := [] }

/-- Witness for C5 at a concrete input. -/
theorem spec_C5_idempotent_witness :
    (lookupEntry [("f", eC1)] "f" = some eC1 ∧ eC1.md5sum = some "H1" ∧
     eC1.archive = false ∧ stC5.fs ("out" ++ "/" ++ "f") = some "C1" ∧
     oW.md5 "C1" = "H1") ∧
    (∃ s', fetch_data_one oW 1 "f" "out" [("f", eC1)] true false stC5 =
        .ok ("out" ++ "/" ++ "f", s') ∧
      s'.fs = stC5.fs ∧ attempts s'.trace = attempts stC5.trace) :=
  ⟨⟨rfl, rfl, rfl, by decide, by decide⟩,
   spec_C5_idempotent oW 0 "f" "out" [("f", eC1)] eC1 "H1" "C1" true stC5
     rfl rfl rfl (by decide) (by decide)⟩

lemma nRecursed_zero_of_noRV (t : List Event) (h : t.all noRV = true) :
    nRecursed t = 0 := by
  rw [nRecursed, List.countP_eq_zero]
  intro e he
  have := List.all_eq_true.mp h e he
  cases e <;> simp_all [noRV]

lemma nVerifySteps_zero_of_noRV (t : List Event) (h : t.all noRV = true) :
    nVerifySteps t = 0 := by
  rw [nVerifySteps, List.countP_eq_zero]
  intro e he
  have := List.all_eq_true.mp h e he
  cases e <;> simp_all [noRV]

/-- C3: `force=FALSE` over an existing cache file whose digest mismatches,
with verification requested and a non-archive entry: the file's digest is
recomputed (one verification step), exactly one recursive call with
`force=TRUE` is made, the forced call performs no verification step of its
own (one verification step in the whole trace), and the result is the same
for every fuel bound of at least two — the recursion depth is at most one,
so `fetch_data_one` terminates. -/
theorem spec_C3_selfheal_once (o : Oracle) (n n' : Nat) (name dir : String)
    (m : Manifest) (e : Entry) (h : String) (c : Content) (s : St)
    (hl : lookupEntry m name = some e)
    (hh : e.md5sum = some h)
    (harch : e.archive = false)
    (hfs : s.fs (dir ++ "/" ++ name) = some c)
    (hbad : o.md5 c ≠ h)
    (htr : s.trace = []) :
    fetch_data_one o (n+2) name dir m true false s =
      fetch_data_one o (n'+2) name dir m true false s ∧
    nRecursed (stOf (fetch_data_one o (n+2) name dir m true false s)).trace = 1 ∧
    nVerifySteps (stOf (fetch_data_one o (n+2) name dir m true false s)).trace = 1 := by
  obtain ⟨us, hc, -⟩ := candidateUrls_ok_of_md5 o.stores e h hh
  have hloop := downloadLoop_skip o e.md5sum (dir ++ "/" ++ name) us s c hfs
  have key : ∀ k1 : Nat, fetch_data_one o (k1+1) name dir m true false s =
      (match fetch_data_one o k1 name dir m true true
          (emit (emit (emit s (.verifyStep (dir ++ "/" ++ name)))
            (.hashed (dir ++ "/" ++ name))) (.recursed name)) with
       | .error es => .error es
       | .ok (_, s5) => archiveStep o e (dir ++ "/" ++ name) s5) := by
    intro k1
    rw [hh] at hloop
    cases hrec : fetch_data_one o k1 name dir m true true
        (emit (emit (emit s (.verifyStep (dir ++ "/" ++ name)))
          (.hashed (dir ++ "/" ++ name))) (.recursed name)) with
    | error es =>
      simp [fetch_data_one, hl, hc, hloop, hfs, hh, emit_fs, hrec, harch, hbad]
    | ok ps =>
      obtain ⟨p5, s5⟩ := ps
      simp [fetch_data_one, hl, hc, hloop, hfs, hh, emit_fs, hrec, harch, hbad]
  refine ⟨?_, ?_⟩
  · rw [show fetch_data_one o (n+2) name dir m true false s =
        (match fetch_data_one o (n+1) name dir m true true
            (emit (emit (emit s (.verifyStep (dir ++ "/" ++ name)))
              (.hashed (dir ++ "/" ++ name))) (.recursed name)) with
         | .error es => .error es
         | .ok (_, s5) => archiveStep o e (dir ++ "/" ++ name) s5) from key (n+1),
      show fetch_data_one o (n'+2) name dir m true false s =
        (match fetch_data_one o (n'+1) name dir m true true
            (emit (emit (emit s (.verifyStep (dir ++ "/" ++ name)))
              (.hashed (dir ++ "/" ++ name))) (.recursed name)) with
         | .error es => .error es
         | .ok (_, s5) => archiveStep o e (dir ++ "/" ++ name) s5) from key (n'+1),
      fetch_forced_fuel_indep o name dir m true
        (emit (emit (emit s (.verifyStep (dir ++ "/" ++ name)))
          (.hashed (dir ++ "/" ++ name))) (.recursed name)) n n']
  · rw [show fetch_data_one o (n+2) name dir m true false s =
        (match fetch_data_one o (n+1) name dir m true true
            (emit (emit (emit s (.verifyStep (dir ++ "/" ++ name)))
              (.hashed (dir ++ "/" ++ name))) (.recursed name)) with
         | .error es => .error es
         | .ok (_, s5) => archiveStep o e (dir ++ "/" ++ name) s5) from key (n+1)]
    obtain ⟨t, ht, hnoRV⟩ := fetch_forced_trace_noRV o name dir m true
      (emit (emit (emit s (.verifyStep (dir ++ "/" ++ name)))
        (.hashed (dir ++ "/" ++ name))) (.recursed name)) n
    have htr4 : (emit (emit (emit s (.verifyStep (dir ++ "/" ++ name)))
        (.hashed (dir ++ "/" ++ name))) (.recursed name)).trace =
        [.verifyStep (dir ++ "/" ++ name), .hashed (dir ++ "/" ++ name),
         .recursed name] := by simp [htr]
    cases hrec : fetch_data_one o (n+1) name dir m true true
        (emit (emit (emit s (.verifyStep (dir ++ "/" ++ name)))
          (.hashed (dir ++ "/" ++ name))) (.recursed name)) with
    | error es =>
      rw [hrec] at ht
      rw [htr4] at ht
      obtain ⟨e1, s1⟩ := es
      simp only [stOf_error] at ht ⊢
      rw [ht]
      constructor
      · rw [nRecursed_append, nRecursed_zero_of_noRV t hnoRV]
        rfl
      · rw [nVerifySteps_append, nVerifySteps_zero_of_noRV t hnoRV]
        rfl
    | ok ps =>
      obtain ⟨p5, s5⟩ := ps
      rw [hrec] at ht
      rw [htr4] at ht
      simp only [stOf_ok] at ht
      obtain ⟨t2, ht2, hneutral⟩ :=
        archiveStep_trace_neutral o e (dir ++ "/" ++ name) s5
      simp only [ht, List.append_assoc] at ht2
      constructor
      · rw [ht2, nRecursed_append, nRecursed_zero_of_noRV (t ++ t2) ?hall]
        · rfl
        case hall =>
          rw [List.all_append, hnoRV, noRV_of_neutral t2 hneutral]
          rfl
      · rw [ht2, nVerifySteps_append, nVerifySteps_zero_of_noRV (t ++ t2) ?hall2]
        · rfl
        case hall2 =>
          rw [List.all_append, hnoRV, noRV_of_neutral t2 hneutral]
          rfl

def eC3 : Entry := { md5sum := some "H1", url := some "good" }

/-- Stale cache: wrong bytes at the target path. -/
def stC3 : St := { fs := fun p => if p = "out/f" then some "STALE" else none, trace := [] }

/-- Witness for C3 at a concrete input (stale cache healed by `good`). -/
theorem spec_C3_selfheal_once_witness :
    (lookupEntry [("f", eC3)] "f" = some eC3 ∧ eC3.md5sum = some "H1" ∧
     eC3.archive = false ∧ stC3.fs ("out" ++ "/" ++ "f") = some "STALE" ∧
     oW.md5 "STALE" ≠ "H1" ∧ stC3.trace = []) ∧
    (fetch_data_one oW 5 "f" "out" [("f", eC3)] true false stC3 =
       fetch_data_one oW 2 "f" "out" [("f", eC3)] true false stC3 ∧
     nRecursed (stOf (fetch_data_one oW 5 "f" "out" [("f", eC3)] true false stC3)).trace = 1 ∧
     nVerifySteps (stOf (fetch_data_one oW 5 "f" "out" [("f", eC3)] true false stC3)).trace = 1) :=
  ⟨⟨rfl, rfl, rfl, by decide, by decide, rfl⟩,
   spec_C3_selfheal_once oW 3 0 "f" "out" [("f", eC3)] eC3 "H1" "STALE" stC3
     rfl rfl rfl (by decide) (by decide) rfl⟩

/-- C9: `fetch_data_all` maps `fetch_data_one` with `force=FALSE` over the
manifest keys in order with no error aggregation: if the keys split as
`pre ++ k :: post` where every fetch in `pre` succeeds and the fetch of `k`
fails, the whole call fails with exactly that error and that state — the
failure propagates as-is (fail-fast) and the keys after `k` are never
fetched: the final state is the one at the failure, with no later events. -/
theorem spec_C9_fail_fast (o : Oracle) (fuel : Nat) (dir : String)
    (m : Manifest) (verify : Bool) (s s1 s2 : St) (pre post : List String)
    (k : String) (ps : List String) (err : RErr)
    (hnames : manifestNames m = pre ++ k :: post)
    (hpre : fetchAllNames o fuel dir m verify pre s = .ok (ps, s1))
    (hk : fetch_data_one o fuel k dir m verify false s1 = .error (err, s2)) :
    fetch_data_all o fuel dir m verify s = .error (err, s2) := by
  rw [fetch_data_all, hnames]
  clear hnames
  induction pre generalizing s ps with
  | nil =>
    cases hpre
    simp only [List.nil_append, fetchAllNames, hk]
  | cons p pre ih =>
    rw [List.cons_append]
    simp only [fetchAllNames] at hpre ⊢
    split at hpre
    · exact absurd hpre (by simp)
    · rename_i r sr heq
      split at hpre
      · exact absurd hpre (by simp)
      · rename_i qs q sq heq2
        cases hpre
        simp [heq, ih sr q heq2]

def mC9 : Manifest := [("a", eC3), ("b", eC4)]

/-- State after the successful fetch of `a` in the C9 witness. -/
def stC9a : St := emit (fsSet (emit stEmpty (.attempt "good"))
  ("out" ++ "/" ++ "a") (some "C1")) (.hashed ("out" ++ "/" ++ "a"))

/-- State at the failure of `b` in the C9 witness. -/
def stC9b : St := emit (emit (emit (emit stC9a (.attempt "dead"))
  (.hashed ("out" ++ "/" ++ "b"))) (.removed ("out" ++ "/" ++ "b"))) (.warn "dead")

/-- Witness for C9 at a concrete input (`a` succeeds, `b` fails, nothing
after `b` runs). -/
theorem spec_C9_fail_fast_witness :
    (manifestNames mC9 = ["a"] ++ "b" :: [] ∧
     fetchAllNames oW 1 "out" mC9 true ["a"] stEmpty =
       .ok (["out" ++ "/" ++ "a"], stC9a) ∧
     fetch_data_one oW 1 "b" "out" mC9 true false stC9a =
       .error (.dataFetch "b" ["dead"], stC9b)) ∧
    fetch_data_all oW 1 "out" mC9 true stEmpty =
      .error (.dataFetch "b" ["dead"], stC9b) :=
  ⟨⟨rfl, rfl, rfl⟩,
   spec_C9_fail_fast oW 1 "out" mC9 true stEmpty stC9a stC9b ["a"] [] "b"
     ["out" ++ "/" ++ "a"] (.dataFetch "b" ["dead"]) rfl rfl rfl⟩

/-- Archive step, tar detected: rename, extract, remove the temporary. -/
lemma archiveStep_tar (o : Oracle) (fd : Entry) (outfile : String) (s : St)
    (c : Content) (ha : fd.archive = true) (hfs : s.fs outfile = some c)
    (ht : o.tarOk c = true) :
    archiveStep o fd outfile s = .ok (outfile,
      emit (fsSet (extractAll (rDirname outfile) (o.tarMembers c)
        (fsSet (fsSet (emit (emit s (.listTar outfile))
          (.renamed outfile (outfile ++ ".tmp"))) outfile none)
          (outfile ++ ".tmp") (some c))) (outfile ++ ".tmp") none)
        (.removed (outfile ++ ".tmp"))) := by
  simp only [archiveStep, ha, if_true, hfs, ht]

/-- Archive step, tar fails and zip detected. -/
lemma archiveStep_zip (o : Oracle) (fd : Entry) (outfile : String) (s : St)
    (c : Content) (ha : fd.archive = true) (hfs : s.fs outfile = some c)
    (ht : o.tarOk c = false) (hz : o.zipOk c = true) :
    archiveStep o fd outfile s = .ok (outfile,
      emit (fsSet (extractAll (rDirname outfile) (o.zipMembers c)
        (fsSet (fsSet (emit (emit (emit s (.listTar outfile))
          (.listZip outfile)) (.renamed outfile (outfile ++ ".tmp")))
          outfile none) (outfile ++ ".tmp") (some c))) (outfile ++ ".tmp") none)
        (.removed (outfile ++ ".tmp"))) := by
  simp only [archiveStep, ha, if_true, hfs, ht, hz, Bool.false_eq_true, if_false]

/-- Archive step, both listings fail: file left in place. -/
lemma archiveStep_nofmt (o : Oracle) (fd : Entry) (outfile : String) (s : St)
    (c : Content) (ha : fd.archive = true) (hfs : s.fs outfile = some c)
    (ht : o.tarOk c = false) (hz : o.zipOk c = false) :
    archiveStep o fd outfile s =
      .ok (outfile, emit (emit s (.listTar outfile)) (.listZip outfile)) := by
  simp only [archiveStep, ha, if_true, hfs, ht, hz, Bool.false_eq_true, if_false]

set_option maxHeartbeats 1000000 in
/-- C6 (amended): for an archive-flagged entry, after a successful verified
download the container format is detected by attempting a tar listing first
and a zip listing only if tar fails; on successful detection the file is
renamed to `<path>.tmp`, extracted into the directory containing the
downloaded file (`dirname` of the target path — the output directory only
when the logical name has no subdirectory), and the temporary archive file
is deleted, so neither the downloaded path nor the temporary path holds the
archive while the members exist; when both listings fail the file is left
in place unextracted and no error is raised. -/
theorem spec_C6_archive_unpack (o : Oracle) (fuel : Nat) (name dir : String)
    (m : Manifest) (e : Entry) (h : String) (u : String) (us : List String)
    (c : Content) (verify : Bool) (s : St)
    (hl : lookupEntry m name = some e)
    (hh : e.md5sum = some h)
    (harch : e.archive = true)
    (hc : candidateUrls o.stores e = .ok (u :: us))
    (hfs : s.fs (dir ++ "/" ++ name) = none)
    (htr : s.trace = [])
    (hd : o.download u = some c) (hok : o.md5 c = h) :
    (o.tarOk c = true →
      ((o.tarMembers c).map
        (fun x => rDirname (dir ++ "/" ++ name) ++ "/" ++ x.1)).Nodup →
      (dir ++ "/" ++ name) ∉ (o.tarMembers c).map
        (fun x => rDirname (dir ++ "/" ++ name) ++ "/" ++ x.1) →
      (dir ++ "/" ++ name ++ ".tmp") ∉ (o.tarMembers c).map
        (fun x => rDirname (dir ++ "/" ++ name) ++ "/" ++ x.1) →
      ∃ s', fetch_data_one o (fuel+1) name dir m verify false s =
          .ok (dir ++ "/" ++ name, s') ∧
        s'.fs (dir ++ "/" ++ name) = none ∧
        s'.fs (dir ++ "/" ++ name ++ ".tmp") = none ∧
        (∀ pm mc, (pm, mc) ∈ o.tarMembers c →
          s'.fs (rDirname (dir ++ "/" ++ name) ++ "/" ++ pm) = some mc) ∧
        s'.trace = [.attempt u, .hashed (dir ++ "/" ++ name),
            .listTar (dir ++ "/" ++ name),
            .renamed (dir ++ "/" ++ name) (dir ++ "/" ++ name ++ ".tmp")] ++
          (o.tarMembers c).map
            (fun x => .extracted (rDirname (dir ++ "/" ++ name) ++ "/" ++ x.1)) ++
          [.removed (dir ++ "/" ++ name ++ ".tmp")]) ∧
    (o.tarOk c = false → o.zipOk c = true →
      ((o.zipMembers c).map
        (fun x => rDirname (dir ++ "/" ++ name) ++ "/" ++ x.1)).Nodup →
      (dir ++ "/" ++ name) ∉ (o.zipMembers c).map
        (fun x => rDirname (dir ++ "/" ++ name) ++ "/" ++ x.1) →
      (dir ++ "/" ++ name ++ ".tmp") ∉ (o.zipMembers c).map
        (fun x => rDirname (dir ++ "/" ++ name) ++ "/" ++ x.1) →
      ∃ s', fetch_data_one o (fuel+1) name dir m verify false s =
          .ok (dir ++ "/" ++ name, s') ∧
        s'.fs (dir ++ "/" ++ name) = none ∧
        s'.fs (dir ++ "/" ++ name ++ ".tmp") = none ∧
        (∀ pm mc, (pm, mc) ∈ o.zipMembers c →
          s'.fs (rDirname (dir ++ "/" ++ name) ++ "/" ++ pm) = some mc) ∧
        s'.trace = [.attempt u, .hashed (dir ++ "/" ++ name),
            .listTar (dir ++ "/" ++ name), .listZip (dir ++ "/" ++ name),
            .renamed (dir ++ "/" ++ name) (dir ++ "/" ++ name ++ ".tmp")] ++
          (o.zipMembers c).map
            (fun x => .extracted (rDirname (dir ++ "/" ++ name) ++ "/" ++ x.1)) ++
          [.removed (dir ++ "/" ++ name ++ ".tmp")]) ∧
    (o.tarOk c = false → o.zipOk c = false →
      ∃ s', fetch_data_one o (fuel+1) name dir m verify false s =
          .ok (dir ++ "/" ++ name, s') ∧
        s'.fs (dir ++ "/" ++ name) = some c ∧
        s'.trace = [.attempt u, .hashed (dir ++ "/" ++ name),
          .listTar (dir ++ "/" ++ name), .listZip (dir ++ "/" ++ name)]) := by
  have hloop : downloadLoop o e.md5sum (dir ++ "/" ++ name) false (u :: us) s =
      .ok (true, emit (fsSet (emit s (.attempt u)) (dir ++ "/" ++ name) (some c))
        (.hashed (dir ++ "/" ++ name))) := by
    rw [hh]
    exact downloadLoop_first_success o h (dir ++ "/" ++ name) false u us s c
      (.inr hfs) hd hok
  have hfsB : (emit (fsSet (emit s (.attempt u)) (dir ++ "/" ++ name) (some c))
      (.hashed (dir ++ "/" ++ name))).fs (dir ++ "/" ++ name) = some c := by simp
  have hfetch : fetch_data_one o (fuel+1) name dir m verify false s =
      archiveStep o e (dir ++ "/" ++ name)
        (emit (fsSet (emit s (.attempt u)) (dir ++ "/" ++ name) (some c))
          (.hashed (dir ++ "/" ++ name))) := by
    simp [fetch_data_one, hl, hc, hloop, hfsB]
  have htmp : dir ++ "/" ++ name ≠ dir ++ "/" ++ name ++ ".tmp" :=
    ne_append_tmp (dir ++ "/" ++ name)
  refine ⟨?_, ?_, ?_⟩
  · intro htar hnd hno hnt
    refine ⟨emit (fsSet (extractAll (rDirname (dir ++ "/" ++ name))
        (o.tarMembers c)
        (fsSet (fsSet (emit (emit (emit (fsSet (emit s (.attempt u))
          (dir ++ "/" ++ name) (some c)) (.hashed (dir ++ "/" ++ name)))
          (.listTar (dir ++ "/" ++ name)))
          (.renamed (dir ++ "/" ++ name) (dir ++ "/" ++ name ++ ".tmp")))
          (dir ++ "/" ++ name) none) (dir ++ "/" ++ name ++ ".tmp") (some c)))
        (dir ++ "/" ++ name ++ ".tmp") none)
        (.removed (dir ++ "/" ++ name ++ ".tmp")), ?_, ?_, ?_, ?_, ?_⟩
    · rw [hfetch, archiveStep_tar o e (dir ++ "/" ++ name) _ c harch hfsB htar]
    · have hnoP : ∀ x ∈ o.tarMembers c,
          rDirname (dir ++ "/" ++ name) ++ "/" ++ x.1 ≠ dir ++ "/" ++ name := by
        intro x hx hxe
        have hmm : rDirname (dir ++ "/" ++ name) ++ "/" ++ x.1 ∈
            (o.tarMembers c).map
              (fun y => rDirname (dir ++ "/" ++ name) ++ "/" ++ y.1) :=
          List.mem_map_of_mem _ hx
        rw [hxe] at hmm
        exact hno hmm
      simp only [emit_fs]
      rw [fsSet_fs_other _ _ _ _ htmp, extractAll_fs_notin _ _ _ _ hnoP,
        fsSet_fs_other _ _ _ _ htmp, fsSet_fs_self]
    · simp only [emit_fs]
      rw [fsSet_fs_self]
    · intro pm mc hmem
      have hpne : rDirname (dir ++ "/" ++ name) ++ "/" ++ pm ≠
          dir ++ "/" ++ name ++ ".tmp" := by
        intro hq
        have hmm : rDirname (dir ++ "/" ++ name) ++ "/" ++ pm ∈
            (o.tarMembers c).map
              (fun y => rDirname (dir ++ "/" ++ name) ++ "/" ++ y.1) :=
          List.mem_map_of_mem _ hmem
        rw [hq] at hmm
        exact hnt hmm
      simp only [emit_fs]
      rw [fsSet_fs_other _ _ _ _ hpne]
      exact extractAll_fs_mem _ _ _ _ _ hnd hmem
    · simp [extractAll_trace, htr]
  · intro htar hzip hnd hno hnt
    refine ⟨emit (fsSet (extractAll (rDirname (dir ++ "/" ++ name))
        (o.zipMembers c)
        (fsSet (fsSet (emit (emit (emit (emit (fsSet (emit s (.attempt u))
          (dir ++ "/" ++ name) (some c)) (.hashed (dir ++ "/" ++ name)))
          (.listTar (dir ++ "/" ++ name))) (.listZip (dir ++ "/" ++ name)))
          (.renamed (dir ++ "/" ++ name) (dir ++ "/" ++ name ++ ".tmp")))
          (dir ++ "/" ++ name) none) (dir ++ "/" ++ name ++ ".tmp") (some c)))
        (dir ++ "/" ++ name ++ ".tmp") none)
        (.removed (dir ++ "/" ++ name ++ ".tmp")), ?_, ?_, ?_, ?_, ?_⟩
    · rw [hfetch, archiveStep_zip o e (dir ++ "/" ++ name) _ c harch hfsB htar hzip]
    · have hnoP : ∀ x ∈ o.zipMembers c,
          rDirname (dir ++ "/" ++ name) ++ "/" ++ x.1 ≠ dir ++ "/" ++ name := by
        intro x hx hxe
        have hmm : rDirname (dir ++ "/" ++ name) ++ "/" ++ x.1 ∈
            (o.zipMembers c).map
              (fun y => rDirname (dir ++ "/" ++ name) ++ "/" ++ y.1) :=
          List.mem_map_of_mem _ hx
        rw [hxe] at hmm
        exact hno hmm
      simp only [emit_fs]
      rw [fsSet_fs_other _ _ _ _ htmp, extractAll_fs_notin _ _ _ _ hnoP,
        fsSet_fs_other _ _ _ _ htmp, fsSet_fs_self]
    · simp only [emit_fs]
      rw [fsSet_fs_self]
    · intro pm mc hmem
      have hpne : rDirname (dir ++ "/" ++ name) ++ "/" ++ pm ≠
          dir ++ "/" ++ name ++ ".tmp" := by
        intro hq
        have hmm : rDirname (dir ++ "/" ++ name) ++ "/" ++ pm ∈
            (o.zipMembers c).map
              (fun y => rDirname (dir ++ "/" ++ name) ++ "/" ++ y.1) :=
          List.mem_map_of_mem _ hmem
        rw [hq] at hmm
        exact hnt hmm
      simp only [emit_fs]
      rw [fsSet_fs_other _ _ _ _ hpne]
      exact extractAll_fs_mem _ _ _ _ _ hnd hmem
    · simp [extractAll_trace, htr]
  · intro htar hzip
    refine ⟨emit (emit (emit (fsSet (emit s (.attempt u))
        (dir ++ "/" ++ name) (some c)) (.hashed (dir ++ "/" ++ name)))
        (.listTar (dir ++ "/" ++ name))) (.listZip (dir ++ "/" ++ name)),
        ?_, ?_, ?_⟩
    · rw [hfetch, archiveStep_nofmt o e (dir ++ "/" ++ name) _ c harch hfsB htar hzip]
    · simp only [emit_fs]
      rw [fsSet_fs_self]
    · simp [htr]

/-- Oracle for the C6 counterexample: `u` serves a tar archive `T` with one
member `m`. -/
def oC6 : Oracle := {
  download := fun u => if u = "u" then some "T" else none
  md5 := fun c => if c = "T" then "H1" else "BADHASH"
  sha512 := fun _ => "S1"
  stores := ""
  tarOk := fun c => c = "T"
  zipOk := fun _ => false
  tarMembers := fun c => if c = "T" then [("m", "MC")] else []
  zipMembers := fun _ => [] }

def eC6 : Entry := { md5sum := some "H1", url := some "u", archive := true }

/-- Counterexample to C6 as stated: for the archive-flagged entry with the
nested logical name `a/x`, the archive is extracted into `out/a` — the
directory containing the downloaded file (`dirname` of the target path) —
not into the output directory `out`: the member lands at `out/a/m` and
nothing is created at `out/m`. -/
theorem spec_C6_counterexample :
    (stOf (fetch_data_one oC6 2 "a/x" "out" [("a/x", eC6)] true false
      stEmpty)).fs ("out/a" ++ "/" ++ "m") = some "MC" ∧
    (stOf (fetch_data_one oC6 2 "a/x" "out" [("a/x", eC6)] true false
      stEmpty)).fs ("out" ++ "/" ++ "m") = none ∧
    (∃ s', fetch_data_one oC6 2 "a/x" "out" [("a/x", eC6)] true false stEmpty =
      .ok ("out" ++ "/" ++ "a/x", s')) := by
  refine ⟨by decide, by decide, ⟨stOf (fetch_data_one oC6 2 "a/x" "out"
    [("a/x", eC6)] true false stEmpty), rfl⟩⟩

/-- Witness for the amended C6 at a concrete input (tar case). -/
theorem spec_C6_archive_unpack_witness :
    (lookupEntry [("x", eC6)] "x" = some eC6 ∧ eC6.md5sum = some "H1" ∧
     eC6.archive = true ∧ candidateUrls oC6.stores eC6 = .ok ("u" :: []) ∧
     stEmpty.fs ("out" ++ "/" ++ "x") = none ∧ stEmpty.trace = [] ∧
     oC6.download "u" = some "T" ∧ oC6.md5 "T" = "H1" ∧
     oC6.tarOk "T" = true) ∧
    (∃ s', fetch_data_one oC6 1 "x" "out" [("x", eC6)] true false stEmpty =
        .ok ("out" ++ "/" ++ "x", s') ∧
      s'.fs ("out" ++ "/" ++ "x") = none ∧
      s'.fs ("out" ++ "/" ++ "x" ++ ".tmp") = none ∧
      (∀ pm mc, (pm, mc) ∈ oC6.tarMembers "T" →
        s'.fs (rDirname ("out" ++ "/" ++ "x") ++ "/" ++ pm) = some mc) ∧
      s'.trace = [.attempt "u", .hashed ("out" ++ "/" ++ "x"),
          .listTar ("out" ++ "/" ++ "x"),
          .renamed ("out" ++ "/" ++ "x") ("out" ++ "/" ++ "x" ++ ".tmp")] ++
        (oC6.tarMembers "T").map
          (fun x => .extracted (rDirname ("out" ++ "/" ++ "x") ++ "/" ++ x.1)) ++
        [.removed ("out" ++ "/" ++ "x" ++ ".tmp")]) :=
  ⟨⟨rfl, rfl, rfl, rfl, rfl, rfl, by decide, by decide, by decide⟩,
   (spec_C6_archive_unpack oC6 0 "x" "out" [("x", eC6)] eC6 "H1" "u" []
      "T" true stEmpty rfl rfl rfl rfl rfl rfl (by decide) (by decide)).1
     (by decide) (by decide) (by decide) (by decide)⟩

/-- C2 at the failing input: with two semicolon-separated object stores
`A;B`, `paste0` coerces the `strsplit` list with `as.character`, deparsing
the two stores into one malformed URL `file://c("A", "B")/MD5/h`; no
per-store URL `file://A/MD5/h` or `file://B/MD5/h` is among the candidates. -/
theorem spec_C2_store_coercion_eval :
    candidateUrls "A;B" ({ md5sum := some "h" } : Entry) = .ok
      ("file://c(\"A\", \"B\")/MD5/h" :: mirror_templates.map (substUrl "h")) ∧
    "file://A/MD5/h" ∉
      ("file://c(\"A\", \"B\")/MD5/h" :: mirror_templates.map (substUrl "h")) ∧
    "file://B/MD5/h" ∉
      ("file://c(\"A\", \"B\")/MD5/h" :: mirror_templates.map (substUrl "h")) :=
  ⟨rfl, by decide, by decide⟩

/-- Oracle for the C8 counterexample: every mirror serves bytes `C` whose
SHA-512 digest matches the entry's declared `sha512` field. -/
def oC8 : Oracle := {
  download := fun _ => some "C"
  md5 := fun _ => "MD5C"
  sha512 := fun _ => "S"
  stores := ""
  tarOk := fun _ => false
  zipOk := fun _ => false
  tarMembers := fun _ => []
  zipMembers := fun _ => [] }

/-- A manifest entry declaring only a SHA-512 digest. -/
def eC8 : Entry := { sha512 := some "S" }

/-- Counterexample to C8 as stated: for an entry whose declared hash field
is `sha512`, the code does not hash with the declared algorithm — it reads
only `md5sum`, which is `NULL`, and `gsub` aborts before any download or
hashing: the returned state is untouched (empty trace, no hash computed),
even though the mirror serves bytes whose SHA-512 digest matches. -/
theorem spec_C8_counterexample :
    eC8.sha512 = some "S" ∧ eC8.md5sum = none ∧ oC8.sha512 "C" = "S" ∧
    oC8.download = (fun _ => some "C") ∧
    fetch_data_one oC8 2 "f" "out" [("f", eC8)] true false stEmpty =
      .error (.invalidReplacement, stEmpty) :=
  ⟨rfl, rfl, rfl, rfl, rfl⟩

/-- C8 (amended): the digest used both for candidate-URL substitution and
for accepting downloaded bytes is always MD5, taken from the entry's
`md5sum` field, and the declared algorithm is never consulted.  First part:
with no explicit `url`, the candidates are exactly the mirror templates
with `%(hash)` replaced by the `md5sum` value and `%(algo)` by `"md5"`,
and a download from the first candidate is accepted (file kept, call
succeeds) precisely when the MD5 oracle digest of the served bytes equals
the entry's `md5sum`.  Second part: for an entry with an explicit `url`
but no `md5sum` field (e.g. one declaring only `sha512`), the download and
the MD5 computation still run, and only then does the `NULL` comparison
fail with R's length-zero-condition error, the downloaded file left on
disk. -/
theorem spec_C8_md5_only (o : Oracle) (fuel : Nat) (name dir : String)
    (m : Manifest) (e : Entry) (h : String) (u : String) (us : List String)
    (c : Content) (verify : Bool) (s : St)
    (hl : lookupEntry m name = some e)
    (hurl : e.url = none)
    (hh : e.md5sum = some h)
    (harch : e.archive = false)
    (hfs : s.fs (dir ++ "/" ++ name) = none)
    (hcand : (get_midas_servers o.stores).map (substUrl h) = u :: us)
    (hd : o.download u = some c)
    (hrest : us.all (mirrorFailsB o h) = true) :
    ((∃ s', fetch_data_one o (fuel+1) name dir m verify false s =
        .ok (dir ++ "/" ++ name, s') ∧
      s'.fs (dir ++ "/" ++ name) = some c) ↔ o.md5 c = h) ∧
    (∀ name2 e2 u2 c2, lookupEntry m name2 = some e2 → e2.url = some u2 →
      e2.md5sum = none → s.fs (dir ++ "/" ++ name2) = none →
      o.download u2 = some c2 →
      ∃ s2, fetch_data_one o (fuel+1) name2 dir m verify false s =
          .error (.lengthZero, s2) ∧
        s2.trace = s.trace ++ [.attempt u2, .hashed (dir ++ "/" ++ name2)] ∧
        s2.fs (dir ++ "/" ++ name2) = some c2) := by
  have hc : candidateUrls o.stores e = .ok (u :: us) := by
    simp only [candidateUrls, hurl, hh, hcand]
  constructor
  · constructor
    · rintro ⟨s', hres, -⟩
      by_contra hcm
      have hfb : mirrorFailsB o h u = true := by
        unfold mirrorFailsB
        rw [hd]
        simp [hcm]
      have hall : (u :: us).all (mirrorFailsB o h) = true := by
        rw [List.all_cons, hfb, hrest]
        rfl
      obtain ⟨s1, hloop, hfs1, -⟩ := downloadLoop_fail_all o h
        (dir ++ "/" ++ name) false (u :: us) s hfs hall
      rw [← hh] at hloop
      rw [show fetch_data_one o (fuel+1) name dir m verify false s =
          .error (.dataFetch (rBasename (dir ++ "/" ++ name)) (u :: us), s1) from by
        simp only [fetch_data_one, hl, hc, hloop, hfs1]] at hres
      cases hres
    · intro hcm
      have hloop := downloadLoop_first_success o h (dir ++ "/" ++ name) false
        u us s c (.inr hfs) hd hcm
      rw [← hh] at hloop
      refine ⟨emit (fsSet (emit s (.attempt u)) (dir ++ "/" ++ name) (some c))
        (.hashed (dir ++ "/" ++ name)), ?_, ?_⟩
      · simp only [fetch_data_one, hl, hc, hloop]
        simp [archiveStep, harch]
      · simp
  · intro name2 e2 u2 c2 hl2 hurl2 hmd2 hfs2 hd2
    have hc2 : candidateUrls o.stores e2 = .ok [u2] := by
      simp only [candidateUrls, hurl2]
    have hloop2 : downloadLoop o e2.md5sum (dir ++ "/" ++ name2) false [u2] s =
        .error (.lengthZero, emit (fsSet (emit s (.attempt u2))
          (dir ++ "/" ++ name2) (some c2)) (.hashed (dir ++ "/" ++ name2))) := by
      rw [hmd2]
      simp only [downloadLoop, hfs2, Option.isNone_none, Bool.or_true, if_true,
        hd2]
    refine ⟨emit (fsSet (emit s (.attempt u2)) (dir ++ "/" ++ name2) (some c2))
      (.hashed (dir ++ "/" ++ name2)), ?_, ?_, ?_⟩
    · simp only [fetch_data_one, hl2, hc2, hloop2]
    · simp
    · simp

/-- Oracle for the C8 witness: the first substituted mirror template serves
correctly-hashed bytes, and the explicit URL `gu` of the sha512-only entry
serves bytes `G`. -/
def oC8w : Oracle := { oC8 with
  download := fun u => if u = c1u1 then some "C1"
    else if u = "gu" then some "G" else none
  md5 := fun c => if c = "C1" then "H1" else "BADHASH" }

/-- An entry with an explicit URL and only a SHA-512 digest. -/
def eC8u : Entry := { sha512 := some "S", url := some "gu" }

def mC8w : Manifest := [("f", eC1), ("g", eC8u)]

/-- Witness for the amended C8 at a concrete input: acceptance of `f` is
decided by MD5, and the sha512-only entry `g` is downloaded and hashed
before the length-zero error, its file left behind. -/
theorem spec_C8_md5_only_witness :
    (lookupEntry mC8w "f" = some eC1 ∧ eC1.url = none ∧
     eC1.md5sum = some "H1" ∧ eC1.archive = false ∧
     stEmpty.fs ("out" ++ "/" ++ "f") = none ∧
     (get_midas_servers oC8w.stores).map (substUrl "H1") = c1u1 :: [c1u2, c1u3] ∧
     oC8w.download c1u1 = some "C1" ∧
     ([c1u2, c1u3].all (mirrorFailsB oC8w "H1")) = true) ∧
    ((∃ s', fetch_data_one oC8w 1 "f" "out" mC8w true false stEmpty =
        .ok ("out" ++ "/" ++ "f", s') ∧
      s'.fs ("out" ++ "/" ++ "f") = some "C1") ↔ oC8w.md5 "C1" = "H1") ∧
    (∃ s2, fetch_data_one oC8w 1 "g" "out" mC8w true false stEmpty =
        .error (.lengthZero, s2) ∧
      s2.trace = stEmpty.trace ++ [.attempt "gu", .hashed ("out" ++ "/" ++ "g")] ∧
      s2.fs ("out" ++ "/" ++ "g") = some "G") :=
  ⟨⟨rfl, rfl, rfl, rfl, rfl, rfl, by decide, by decide⟩,
   (spec_C8_md5_only oC8w 0 "f" "out" mC8w eC1 "H1" c1u1 [c1u2, c1u3]
      "C1" true stEmpty rfl rfl rfl rfl rfl rfl (by decide) (by decide)).1,
   (spec_C8_md5_only oC8w 0 "f" "out" mC8w eC1 "H1" c1u1 [c1u2, c1u3]
      "C1" true stEmpty rfl rfl rfl rfl rfl rfl (by decide) (by decide)).2
     "g" eC8u "gu" "G" rfl rfl rfl rfl (by decide)⟩
